import Mathlib

/-!
Shallow embedding of the crypto-dashboard caching core:
`src/lib/cache-manager.ts` (persistent cache store over `localStorage`)
and the cache-aware fetch client `fetchWithCache` (`src/unnamed/part_002`).

Modelling conventions:
* JSON values are the inductive `Json`; JSON numbers are restricted to
  integers (the program only ever stores `Date.now()`-derived integers).
* `localStorage` is an ordered association list `Storage` of
  (key, stored string) pairs; stored strings are modelled up to their
  `JSON.parse` result by `RawStr`: `.json j` is a string whose parse
  yields `j` (canonical text `Json.stringify j`), `.bad n` is a string of
  length `n` that `JSON.parse` rejects (`.bad 0` is the empty string,
  which is falsy in JS and rejected by `JSON.parse`).
* `Date.now()` is a `Nat` parameter (epoch milliseconds).
* Browser presence (`typeof window !== "undefined"`) is the `client` flag.
* `localStorage.setItem` quota failure (`QuotaExceededError`) is the
  `quotaFails` flag of `setCachedData`.
* `console.log` debug output (`DEBUG = false` in the source) is dropped.
-/

/-- A JSON value, as produced by `JSON.parse` / consumed by `JSON.stringify`.
Numbers are modelled as integers. -/
inductive Json where
  | null
  | bool (b : Bool)
  | num (n : Int)
  | str (s : String)
  | arr (elems : List Json)
  | obj (fields : List (String × Json))
deriving Repr

/-- JavaScript truthiness of a JSON-derived value (`if (x)`). Arrays and
objects are always truthy; `NaN` does not arise since numbers are integers. -/
def Json.truthy : Json → Bool
  | .null => false
  | .bool b => b
  | .num n => n != 0
  | .str s => s != ""
  | .arr _ => true
  | .obj _ => true

/-- JavaScript property access `j.f` on a JSON-derived value: `none` models
`undefined`. On objects the last occurrence of a duplicate key wins, as in
`JSON.parse`. -/
def Json.getField (j : Json) (f : String) : Option Json :=
  match j with
  | .obj fields => (fields.reverse.find? (fun p => p.1 == f)).map (fun p => p.2)
  | _ => none

/-- Escape one character as inside a `JSON.stringify` string literal. -/
def jsonEscape (c : Char) : String :=
  if c = '"' then "\\\""
  else if c = '\\' then "\\\\"
  else if c = '\n' then "\\n"
  else if c = '\t' then "\\t"
  else if c = '\r' then "\\r"
  else if c.toNat < 32 then
    "\\u00" ++ (if c.toNat < 16 then "0" else "") ++ (Nat.toDigits 16 c.toNat).asString
  else String.singleton c

/-- `JSON.stringify` of a string value. -/
def stringifyStr (s : String) : String :=
  "\"" ++ (s.data.map jsonEscape).foldl (fun a b => a ++ b) "" ++ "\""

mutual

/-- `JSON.stringify` (no spacing), for the `Json` model. -/
def Json.stringify : Json → String
  | .null => "null"
  | .bool true => "true"
  | .bool false => "false"
  | .num n => toString n
  | .str s => stringifyStr s
  | .arr xs => "[" ++ stringifyList xs ++ "]"
  | .obj fs => "\x7b" ++ stringifyFields fs ++ "\x7d"

/-- Comma-joined element list of `JSON.stringify`. -/
def stringifyList : List Json → String
  | [] => ""
  | [x] => Json.stringify x
  | x :: y :: xs => Json.stringify x ++ "," ++ stringifyList (y :: xs)

/-- Comma-joined field list of `JSON.stringify`. -/
def stringifyFields : List (String × Json) → String
  | [] => ""
  | [(k, v)] => stringifyStr k ++ ":" ++ Json.stringify v
  | (k, v) :: f :: fs => stringifyStr k ++ ":" ++ Json.stringify v ++ "," ++ stringifyFields (f :: fs)

end

/-- A stored `localStorage` string, modelled up to its `JSON.parse` result.
`.json j`: a string whose parse succeeds with value `j` (its text is the
canonical `Json.stringify j`). `.bad n`: a string of length `n` rejected by
`JSON.parse` (length 0 is exactly the empty string). -/
inductive RawStr where
  | json (j : Json)
  | bad (len : Nat)
deriving Repr

/-- Whether a stored string parses as JSON. -/
def RawStr.isJson : RawStr → Bool
  | .json _ => true
  | .bad _ => false

/-- UTF-16 length of the stored string (`cached.length` in the source). -/
def RawStr.len : RawStr → Nat
  | .json j => (Json.stringify j).length
  | .bad n => n

/-- The `localStorage` contents: entries in `localStorage.key(i)` order.
Real `localStorage` keys are unique; theorems that need uniqueness take a
`Nodup` hypothesis on the key list. -/
abbrev Storage := List (String × RawStr)

/-- `localStorage.getItem`. -/
def getItem (store : Storage) (k : String) : Option RawStr :=
  ((store : List (String × RawStr)).find? (fun p => p.1 == k)).map (fun p => p.2)

/-- `localStorage.setItem` (successful case): replaces an existing key in
place, otherwise appends. -/
def setItem (store : Storage) (k : String) (v : RawStr) : Storage :=
  if (store : List (String × RawStr)).any (fun p => p.1 == k) then
    (store : List (String × RawStr)).map (fun p => if p.1 == k then (k, v) else p)
  else (store : List (String × RawStr)) ++ [(k, v)]

/-- `localStorage.removeItem`. -/
def removeItem (store : Storage) (k : String) : Storage :=
  (store : List (String × RawStr)).filter (fun p => p.1 != k)

/-- `const CACHE_PREFIX = "crypto_cache_"` (renamed to avoid a clash with
Lean notation keywords). -/
def CACHE_NS : String := "crypto_cache_"

/-- `const DEFAULT_TTL = 10 * 60 * 1000`. -/
def DEFAULT_TTL : Nat := 10 * 60 * 1000

/-- `getCacheKey`: the namespaced storage key. -/
def getCacheKey (key : String) : String := CACHE_NS ++ key

/-- JS `key.startsWith(CACHE_PREFIX)`: code-unit prefix test, defined
structurally on the character data (the library `String.startsWith` is
extensionally the same but does not reduce inside the kernel). -/
def strStartsWith (s pre : String) : Bool := pre.data.isPrefixOf s.data

/-- The serialized `CacheEntry<T>` object written by `setCachedData`:
`{ key, data, timestamp: now, expiresAt: now + ttl }`. -/
def entryJson (key : String) (data : Json) (now ttl : Nat) : Json :=
  .obj [("key", .str key), ("data", data),
        ("timestamp", .num now), ("expiresAt", .num (now + ttl))]

/-- The JS comparison `now < entry.expiresAt`. A missing or non-numeric
`expiresAt` coerces to `NaN` for the values this store can hold, and any
comparison with `NaN` is false. -/
def expiresAfter (now : Nat) (e : Json) : Bool :=
  match e.getField "expiresAt" with
  | some (.num n) => (now : Int) < n
  | _ => false

/-- The JS comparison `now >= entry.expiresAt` (false on `NaN`, so this is
not the negation of `expiresAfter` when `expiresAt` is missing). -/
def expiredBy (now : Nat) (e : Json) : Bool :=
  match e.getField "expiresAt" with
  | some (.num n) => n ≤ (now : Int)
  | _ => false

/-- `getCachedData<T>(key)`: returns the entry's `data` only when the entry
exists, parses, and `now < expiresAt`; `null`/`undefined` (here `none`) on a
missing key, a parse failure (the `catch` branch), or expiry. The empty
string fails the `if (!cached)` test and yields the MISS branch. -/
def getCachedData (client : Bool) (now : Nat) (store : Storage) (key : String) : Option Json :=
  if !client then none
  else
    match getItem store (getCacheKey key) with
    | none => none
    | some (.bad _) => none
    | some (.json e) =>
      if expiresAfter now e then e.getField "data"
      else none

/-- `getExpiredCacheData<T>(key)`: the entry's `data` regardless of expiry;
`none` on missing key or parse failure. -/
def getExpiredCacheData (client : Bool) (store : Storage) (key : String) : Option Json :=
  if !client then none
  else
    match getItem store (getCacheKey key) with
    | none => none
    | some (.bad _) => none
    | some (.json e) => e.getField "data"

/-- `isCacheValid(key)`: true iff the entry exists, parses and
`Date.now() < entry.expiresAt`. -/
def isCacheValid (client : Bool) (now : Nat) (store : Storage) (key : String) : Bool :=
  if !client then false
  else
    match getItem store (getCacheKey key) with
    | none => false
    | some (.bad _) => false
    | some (.json e) => expiresAfter now e

/-- `invalidateCache(key)`. -/
def invalidateCache (client : Bool) (store : Storage) (key : String) : Storage :=
  if !client then store
  else removeItem store (getCacheKey key)

/-- The key-collection loop of `clearExpiredCache`: walks the entries in
order; a namespaced entry whose string fails `JSON.parse` throws (aborting
the whole sweep), the empty string is skipped by `if (cached)`, and a parsed
entry is collected when `now >= entry.expiresAt`. Accumulation order is
immaterial because an error discards everything. -/
def collectExpiredKeys (now : Nat) : List (String × RawStr) → Except Unit (List String)
  | [] => .ok []
  | p :: rest =>
    if strStartsWith p.1 CACHE_NS then
      match p.2 with
      | .bad 0 => collectExpiredKeys now rest
      | .bad (_ + 1) => .error ()
      | .json e =>
        match collectExpiredKeys now rest with
        | .error u => .error u
        | .ok ks => .ok (if expiredBy now e then p.1 :: ks else ks)
    else collectExpiredKeys now rest

/-- `clearExpiredCache()`: collects the namespaced keys with
`expiresAt <= now`, then removes them. If any namespaced record fails
`JSON.parse`, the exception reaches the surrounding `catch` before any
removal, so the store is unchanged. -/
def clearExpiredCache (client : Bool) (now : Nat) (store : Storage) : Storage :=
  if !client then store
  else
    match collectExpiredKeys now store with
    | .error _ => store
    | .ok ks => ks.foldl removeItem store

/-- `clearAllCache()`: collects every key starting with the namespace, then
removes each collected key. -/
def clearAllCache (client : Bool) (store : Storage) : Storage :=
  if !client then store
  else
    let keysToRemove := ((store : List (String × RawStr)).map (fun p => p.1)).filter
      (fun k => strStartsWith k CACHE_NS)
    keysToRemove.foldl removeItem store

/-- `setCachedData<T>(key, data, ttl)`: writes the serialized entry; on a
`QuotaExceededError` from `setItem` the write is lost and one
`clearExpiredCache()` runs as recovery; every error is swallowed
(best-effort write). -/
def setCachedData (client : Bool) (now : Nat) (store : Storage) (key : String)
    (data : Json) (ttl : Nat) (quotaFails : Bool) : Storage :=
  if !client then store
  else if quotaFails then clearExpiredCache client now store
  else setItem store (getCacheKey key) (.json (entryJson key data now ttl))

/-- The record returned by `getCacheStats()`. `totalSize` is the formatted
string of the source (`"<n> B"` or `"<x.xx> KB"`). -/
structure CacheStats where
  totalEntries : Nat
  validEntries : Nat
  expiredEntries : Nat
  totalSize : String
deriving Repr, DecidableEq

/-- Zero-pad a two-digit fraction for `toFixed(2)`. -/
def pad2 (m : Nat) : String :=
  if m < 10 then "0" ++ toString m else toString m

/-- `(totalBytes / 1024).toFixed(2)`: `totalBytes / 1024` is an exact dyadic
double, and `toFixed(2)` rounds it to the nearest hundredth, half away from
zero; computed exactly in `Nat` arithmetic. -/
def toFixed2KB (totalBytes : Nat) : String :=
  let n := (200 * totalBytes + 1024) / 2048
  toString (n / 100) ++ "." ++ pad2 (n % 100)

/-- The `totalSize` formatting of `getCacheStats`. -/
def formatSize (totalBytes : Nat) : String :=
  if 1024 < totalBytes then toFixed2KB totalBytes ++ " KB"
  else toString totalBytes ++ " B"

/-- The scan loop of `getCacheStats`, producing
(totalEntries, validEntries, expiredEntries, totalBytes). A namespaced
record that fails `JSON.parse` throws and aborts the whole call; the empty
string is counted in `totalEntries` but skipped by `if (cached)`; a parsed
entry adds `cached.length * 2` bytes and is valid iff `now < expiresAt`
(anything else, including a missing `expiresAt`, counts as expired). -/
def statsScan (now : Nat) : List (String × RawStr) → Except Unit (Nat × Nat × Nat × Nat)
  | [] => .ok (0, 0, 0, 0)
  | p :: rest =>
    if strStartsWith p.1 CACHE_NS then
      match p.2 with
      | .bad 0 =>
        match statsScan now rest with
        | .error u => .error u
        | .ok (t, v, x, b) => .ok (t + 1, v, x, b)
      | .bad (_ + 1) => .error ()
      | .json e =>
        match statsScan now rest with
        | .error u => .error u
        | .ok (t, v, x, b) =>
          if expiresAfter now e then .ok (t + 1, v + 1, x, b + 2 * (Json.stringify e).length)
          else .ok (t + 1, v, x + 1, b + 2 * (Json.stringify e).length)
    else statsScan now rest

/-- `getCacheStats()`: scans all entries; any exception (or a non-browser
context) yields the zero snapshot with `totalSize = "0 KB"`. -/
def getCacheStats (client : Bool) (now : Nat) (store : Storage) : CacheStats :=
  if !client then ⟨0, 0, 0, "0 KB"⟩
  else
    match statsScan now store with
    | .error _ => ⟨0, 0, 0, "0 KB"⟩
    | .ok (t, v, x, b) => ⟨t, v, x, formatSize b⟩

/-!
The cache-aware fetch client (`fetchWithCache` in the API client module).
The single `fetch(url)` attempt of one call is an oracle `NetOutcome`; the
two `Date.now()` readings of one call (cache consult, then `setCachedData`
after the response) are `nowReq` and `nowResp`.
-/

/-- A thrown JavaScript error value, as far as the client distinguishes
them: `new Error(message)`, the rejection of `fetch` itself (a transport
failure), or the rejection of `response.json()`. -/
inductive JsError where
  | err (message : String)
  | transportFail
  | bodyParseFail
deriving Repr, DecidableEq

/-- The outcome of the one `fetch(url)` attempt: either a response (with
status, status text, and `some body` when `response.json()` resolves) or a
transport failure rejecting the fetch promise. -/
inductive NetOutcome where
  | response (status : Nat) (statusText : String) (body : Option Json)
  | disconnect
deriving Repr

/-- `response.ok`: status in the inclusive range 200–299. -/
def statusOk (status : Nat) : Bool := 200 ≤ status && status ≤ 299

/-- `"Rate limit exceeded. Please wait a moment."` — the 429 error. -/
def rateLimitMsg : String := "Rate limit exceeded. Please wait a moment."

/-- The generic upstream error message
`` `API Error: ${response.status} ${response.statusText}` ``. -/
def apiErrorMsg (status : Nat) (statusText : String) : String :=
  "API Error: " ++ toString status ++ " " ++ statusText

/-- The error the `try` block throws for a failing network attempt
(transport failure or non-2xx status): 429 is classified before any other
status. Only meaningful when `netFailed` holds. -/
def classifiedOf (net : NetOutcome) : JsError :=
  match net with
  | .disconnect => .transportFail
  | .response status statusText _ =>
    if status == 429 then .err rateLimitMsg
    else .err (apiErrorMsg status statusText)

/-- The network attempt did not yield a successful response: transport
failure or non-2xx status. -/
def netFailed (net : NetOutcome) : Bool :=
  match net with
  | .disconnect => true
  | .response status _ _ => !statusOk status

/-- The cache-hit test at the top of `fetchWithCache`: when `forceRefresh`
is false, `getCachedData` is consulted and the result is returned iff it is
truthy (`if (cached)` tests the payload, not entry presence). -/
def freshHit (client : Bool) (nowReq : Nat) (store : Storage) (cacheKey : String)
    (forceRefresh : Bool) : Option Json :=
  if forceRefresh then none
  else
    match getCachedData client nowReq store cacheKey with
    | some c => if c.truthy then some c else none
    | none => none

/-- The observable result of one `fetchWithCache` call: the returned value
or thrown error, the final store, and how many network calls were made. -/
structure FetchResult where
  result : Except JsError Json
  store : Storage
  netCalls : Nat
deriving Repr

/-- The `catch` block of `fetchWithCache`: serve `getExpiredCacheData` when
its value is truthy (`if (expiredCache)`), otherwise rethrow `e`. -/
def fallbackOrThrow (client : Bool) (store : Storage) (cacheKey : String)
    (e : JsError) : FetchResult :=
  match getExpiredCacheData client store cacheKey with
  | some d => if d.truthy then ⟨.ok d, store, 1⟩ else ⟨.error e, store, 1⟩
  | none => ⟨.error e, store, 1⟩

/-- `fetchWithCache<T>(url, cacheKey, forceRefresh)`. The `url` determines
only which resource the oracle `net` answers for, not the control flow. -/
def fetchWithCache (client : Bool) (nowReq nowResp : Nat) (store : Storage)
    (url cacheKey : String) (forceRefresh : Bool) (net : NetOutcome)
    (quotaFails : Bool) : FetchResult :=
  match freshHit client nowReq store cacheKey forceRefresh with
  | some cached => ⟨.ok cached, store, 0⟩
  | none =>
    match net with
    | .disconnect => fallbackOrThrow client store cacheKey .transportFail
    | .response status statusText body =>
      if !statusOk status then
        if status == 429 then
          fallbackOrThrow client store cacheKey (.err rateLimitMsg)
        else
          fallbackOrThrow client store cacheKey (.err (apiErrorMsg status statusText))
      else
        match body with
        | none => fallbackOrThrow client store cacheKey .bodyParseFail
        | some data =>
          ⟨.ok data, setCachedData client nowResp store cacheKey data DEFAULT_TTL quotaFails, 1⟩

/-! Derived predicates on stored strings, and concrete fixtures used by the
counterexample theorems. -/

/-- The removal test of `clearExpiredCache` on a stored string:
`now >= entry.expiresAt` for a parsed record; an unparseable string is never
selected for removal. -/
def rawExpired (now : Nat) : RawStr → Bool
  | .json e => expiredBy now e
  | .bad _ => false

/-- The validity test `now < entry.expiresAt` on a stored string. -/
def rawValid (now : Nat) : RawStr → Bool
  | .json e => expiresAfter now e
  | .bad _ => false

/-- The `expiredEntries` test of `getCacheStats` on a parsed record: the
`else` branch of `if (now < entry.expiresAt)`. -/
def rawStatExpired (now : Nat) : RawStr → Bool
  | .json e => !expiresAfter now e
  | .bad _ => false

/-- The spec's words for the `stats` snapshot size field: "totalSizeBytes is
the total size in bytes of the stored records", i.e. twice the summed UTF-16
lengths of the namespaced records (two bytes per code unit). Used only to
compare the claimed field against what `getCacheStats` actually returns. -/
def specTotalSizeBytes (store : Storage) : Nat :=
  ((store.filter (fun p => strStartsWith p.1 CACHE_NS)).map (fun p => 2 * p.2.len)).sum

/-- A store with a single unexpired entry whose payload is the falsy `0`. -/
def c1Store : Storage := [(getCacheKey "k", .json (entryJson "k" (.num 0) 0 100))]

/-- A store with a single unexpired entry whose payload is the falsy `0`. -/
def c2Store : Storage := [(getCacheKey "k", .json (entryJson "k" (.num 0) 0 1000))]

/-- A store holding one expired namespaced entry and one namespaced record
that `JSON.parse` rejects. -/
def c6Store : Storage :=
  [(getCacheKey "a", .json (entryJson "a" (.num 1) 0 500)), (getCacheKey "b", .bad 5)]

/-- A string of `n` repetitions of `a`. -/
def mkA (n : Nat) : String := String.mk (List.replicate n 'a')

/-- A store whose single valid record serializes to 513 characters
(1026 bytes). -/
def c9StoreA : Storage := [(getCacheKey "k", .json (entryJson "k" (.str (mkA 460)) 100 100))]

/-- A store whose single valid record serializes to 514 characters
(1028 bytes). -/
def c9StoreB : Storage := [(getCacheKey "k", .json (entryJson "k" (.str (mkA 461)) 100 100))]

/-- A small mixed store: one valid namespaced entry, one unrelated
non-namespaced record. -/
def c9WitStore : Storage :=
  [(getCacheKey "k", .json (entryJson "k" (.num 1) 0 100)), ("other", .bad 3)]

/-! Helper lemmas about the storage model. -/

theorem find?_map_replace (k : String) (v : RawStr) :
    ∀ s : List (String × RawStr), s.any (fun p => p.1 == k) = true →
      (s.map (fun p => if p.1 == k then (k, v) else p)).find? (fun p => p.1 == k) = some (k, v)
  | [], h => by simp at h
  | p :: rest, h => by
    simp only [List.map_cons]
    by_cases hp : (p.1 == k) = true
    · rw [if_pos hp, List.find?_cons_of_pos _ (by simp)]
    · rw [if_neg hp, List.find?_cons_of_neg _ (by simpa using hp)]
      refine find?_map_replace k v rest ?_
      simpa [hp] using h

theorem find?_append_absent (k : String) (v : RawStr) :
    ∀ s : List (String × RawStr), s.any (fun p => p.1 == k) = false →
      (s ++ [(k, v)]).find? (fun p => p.1 == k) = some (k, v)
  | [], _ => by
    rw [List.nil_append]
    exact List.find?_cons_of_pos _ (by simp)
  | p :: rest, h => by
    simp only [List.any_cons, Bool.or_eq_false_iff] at h
    rw [List.cons_append, List.find?_cons_of_neg _ (by simp [h.1])]
    exact find?_append_absent k v rest h.2

/-- `setItem` followed by `getItem` on the same key yields the new value. -/
theorem getItem_setItem (s : Storage) (k : String) (v : RawStr) :
    getItem (setItem s k v) k = some v := by
  unfold setItem getItem
  by_cases h : s.any (fun p => p.1 == k) = true
  · rw [if_pos h, find?_map_replace k v s h]; rfl
  · rw [if_neg h, find?_append_absent k v s (Bool.eq_false_iff.mpr h)]; rfl

/-- Field lookups on a serialized cache entry. -/
theorem entryJson_getField_data (key : String) (d : Json) (now ttl : Nat) :
    (entryJson key d now ttl).getField "data" = some d := rfl

theorem entryJson_getField_expiresAt (key : String) (d : Json) (now ttl : Nat) :
    (entryJson key d now ttl).getField "expiresAt" = some (.num (now + ttl)) := rfl

theorem expiresAfter_entryJson (now2 : Nat) (key : String) (d : Json) (now ttl : Nat) :
    expiresAfter now2 (entryJson key d now ttl) = true ↔ now2 < now + ttl := by
  unfold expiresAfter
  rw [entryJson_getField_expiresAt]
  simp only [decide_eq_true_eq]
  exact_mod_cast Iff.rfl

/-- Claim C4: for every key `k`, data `d` and TTL `t > 0`, immediately after
`set(k, d, t)` — with the clock still strictly inside the TTL window, i.e.
before the entry's `expiresAt = now + t` — `get(k)` returns `d` and
`isValid(k)` returns `true` (browser context, write not hit by a storage
quota failure). -/
theorem set_then_get_valid (now now2 : Nat) (store : Storage) (key : String)
    (d : Json) (t : Nat) (ht : 0 < t) (hclock : now2 < now + t) :
    getCachedData true now2 (setCachedData true now store key d t false) key = some d
      ∧ isCacheValid true now2 (setCachedData true now store key d t false) key = true := by
  have hset : setCachedData true now store key d t false
      = setItem store (getCacheKey key) (.json (entryJson key d now t)) := rfl
  have hitem : getItem (setCachedData true now store key d t false) (getCacheKey key)
      = some (.json (entryJson key d now t)) := by
    rw [hset]; exact getItem_setItem store (getCacheKey key) (.json (entryJson key d now t))
  have hexp : expiresAfter now2 (entryJson key d now t) = true :=
    (expiresAfter_entryJson now2 key d now t).mpr hclock
  constructor
  · unfold getCachedData
    rw [hitem]
    simp [hexp, entryJson_getField_data]
  · unfold isCacheValid
    rw [hitem]
    simp [hexp]

/-- Witness for C4 at a concrete input. -/
theorem set_then_get_valid_witness :
    getCachedData true 100 (setCachedData true 100 [] "k" (.num 7) 600000 false) "k"
        = some (.num 7)
      ∧ isCacheValid true 100 (setCachedData true 100 [] "k" (.num 7) 600000 false) "k" = true :=
  set_then_get_valid 100 100 [] "k" (.num 7) 600000 (by decide) (by omega)

/-- Entries surviving a fold of `removeItem` come from the original store. -/
theorem mem_of_mem_foldl_removeItem :
    ∀ {ks : List String} {s : Storage} {q : String × RawStr},
      q ∈ ks.foldl removeItem s → q ∈ s
  | [], _, _, hq => hq
  | a :: as, s, q, hq => by
    have h1 : q ∈ removeItem s a := @mem_of_mem_foldl_removeItem as (removeItem s a) q hq
    unfold removeItem at h1
    exact (List.mem_filter.mp h1).1

/-- Claim C8: a `set` call that fails with a storage-quota error runs exactly
one sweep of expired entries and returns normally, without retrying the
write: the resulting store is the sweep of the original store, and a key
absent before the failed write is still absent after it. `set` never
propagates a storage failure (it is total on every input). -/
theorem set_quota_failure_sweeps (now : Nat) (store : Storage) (key : String)
    (d : Json) (t : Nat) :
    setCachedData true now store key d t true = clearExpiredCache true now store
      ∧ (getItem store (getCacheKey key) = none →
          getItem (setCachedData true now store key d t true) (getCacheKey key) = none) := by
  refine ⟨rfl, fun habs => ?_⟩
  show getItem (clearExpiredCache true now store) (getCacheKey key) = none
  unfold clearExpiredCache
  simp only [Bool.not_true, Bool.false_eq_true, if_false]
  unfold getItem at habs ⊢
  rw [Option.map_eq_none'] at habs ⊢
  rw [List.find?_eq_none] at habs ⊢
  intro p hp
  match hcol : collectExpiredKeys now store with
  | .error _ => exact habs p (by rwa [hcol] at hp)
  | .ok ks =>
    rw [hcol] at hp
    exact habs p (mem_of_mem_foldl_removeItem hp)

/-! Helper lemmas about the fetch client. -/

/-- The generic upstream message can never equal the rate-limit message:
their first characters differ. -/
theorem apiErrorMsg_ne_rateLimitMsg (status : Nat) (st : String) :
    apiErrorMsg status st ≠ rateLimitMsg := by
  intro h
  have h2 := congrArg String.data h
  unfold apiErrorMsg rateLimitMsg at h2
  simp only [String.data_append] at h2
  simp only [List.cons_append] at h2
  injection h2 with hc _
  exact absurd hc (by decide)

/-- The `catch` block always reports one network call. -/
theorem fallbackOrThrow_netCalls (client : Bool) (store : Storage) (key : String)
    (e : JsError) : (fallbackOrThrow client store key e).netCalls = 1 := by
  unfold fallbackOrThrow
  cases getExpiredCacheData client store key with
  | none => rfl
  | some d => by_cases hd : d.truthy = true <;> simp [hd]

/-- The `catch` block serves a truthy stale payload. -/
theorem fallbackOrThrow_truthy (store : Storage) (key : String) (e : JsError) (d : Json)
    (hstale : getExpiredCacheData true store key = some d) (htr : d.truthy = true) :
    fallbackOrThrow true store key e = ⟨.ok d, store, 1⟩ := by
  unfold fallbackOrThrow
  rw [hstale]
  simp [htr]

/-- The `catch` block rethrows when no truthy stale payload exists. -/
theorem fallbackOrThrow_noStale (store : Storage) (key : String) (e : JsError)
    (hns : ∀ c, getExpiredCacheData true store key = some c → c.truthy = false) :
    fallbackOrThrow true store key e = ⟨.error e, store, 1⟩ := by
  unfold fallbackOrThrow
  cases hx : getExpiredCacheData true store key with
  | none => rfl
  | some c => simp [hns c hx]

/-- Claim C5: the `get`/`getStale` contract, over every execution
environment and store contents. Both operations are total functions into
`Option` — the source's internal `try`/`catch` turns a parse failure into
`null`, so no call ever throws. `get` yields the stored data only for a
parsed entry with `now < expiresAt`; it yields `none` outside the browser,
on a missing key, on a parse failure, and on expiry. `getStale` yields the
last written data regardless of expiry, `none` on a missing key or parse
failure. -/
theorem get_getStale_total_contract (client : Bool) (now : Nat) (store : Storage)
    (key : String) :
    (client = false → getCachedData client now store key = none
        ∧ getExpiredCacheData client store key = none)
  ∧ (getItem store (getCacheKey key) = none → getCachedData client now store key = none
        ∧ getExpiredCacheData client store key = none)
  ∧ (∀ n, getItem store (getCacheKey key) = some (.bad n) →
        getCachedData client now store key = none ∧ getExpiredCacheData client store key = none)
  ∧ (∀ e, client = true → getItem store (getCacheKey key) = some (.json e) →
        getCachedData client now store key
            = (if expiresAfter now e then e.getField "data" else none)
          ∧ getExpiredCacheData client store key = e.getField "data") := by
  refine ⟨?_, ?_, ?_, ?_⟩
  · intro hc; subst hc; exact ⟨rfl, rfl⟩
  · intro hnone
    cases client with
    | false => exact ⟨rfl, rfl⟩
    | true =>
      unfold getCachedData getExpiredCacheData
      rw [hnone]
      exact ⟨rfl, rfl⟩
  · intro n hbad
    cases client with
    | false => exact ⟨rfl, rfl⟩
    | true =>
      unfold getCachedData getExpiredCacheData
      rw [hbad]
      exact ⟨rfl, rfl⟩
  · intro e hc hjson
    subst hc
    unfold getCachedData getExpiredCacheData
    rw [hjson]
    exact ⟨rfl, rfl⟩

/-- Witness for C5 at a concrete input (missing key). -/
theorem get_getStale_total_contract_witness :
    getCachedData true 0 [] "k" = none ∧ getExpiredCacheData true [] "k" = none :=
  (get_getStale_total_contract true 0 [] "k").2.1 rfl

/-- Claim C2 (amended): when the store holds an unexpired entry for the key
whose payload is truthy, a `forceRefresh = false` call returns that payload
with zero network calls and an unchanged store. (The unamended claim fails
for falsy payloads: see the counterexample.) -/
theorem cache_hit_returns_cached (nowReq nowResp : Nat) (store : Storage)
    (url key : String) (net : NetOutcome) (qf : Bool) (d : Json)
    (hget : getCachedData true nowReq store key = some d) (htr : d.truthy = true) :
    fetchWithCache true nowReq nowResp store url key false net qf = ⟨.ok d, store, 0⟩ := by
  have hhit : freshHit true nowReq store key false = some d := by
    unfold freshHit
    rw [if_neg (by simp), hget]
    simp [htr]
  unfold fetchWithCache
  rw [hhit]

/-- Witness for C2's amended theorem at a concrete input. -/
theorem cache_hit_returns_cached_witness :
    fetchWithCache true 100 100 [(getCacheKey "k", .json (entryJson "k" (.num 5) 0 1000))]
        "u" "k" false .disconnect false
      = ⟨.ok (.num 5), [(getCacheKey "k", .json (entryJson "k" (.num 5) 0 1000))], 0⟩ :=
  cache_hit_returns_cached 100 100 _ "u" "k" .disconnect false (.num 5) rfl rfl

/-- Claim C2 counterexample: the store holds an *unexpired* entry for `k`
with payload `P1 = 0` (falsy), `forceRefresh = false` — yet one network
call is made and the fresh payload `7` is returned instead of `P1`, because
`if (cached)` tests the payload's truthiness. -/
theorem cache_hit_falsy_counterexample :
    isCacheValid true 500 c2Store "k" = true
      ∧ getCachedData true 500 c2Store "k" = some (.num 0)
      ∧ (fetchWithCache true 500 500 c2Store "u" "k" false
          (.response 200 "OK" (some (.num 7))) false).netCalls = 1
      ∧ (fetchWithCache true 500 500 c2Store "u" "k" false
          (.response 200 "OK" (some (.num 7))) false).result = .ok (.num 7) :=
  ⟨rfl, rfl, rfl, rfl⟩

/-- Claim C3: on a cache miss (or `forceRefresh`) with a successful 2xx
response whose body parses to `P`, exactly one network call is made, the
store is updated through `set(cacheKey, P)` with the default TTL, and `P`
is returned. -/
theorem fetch_success_writes_and_returns (nowReq nowResp : Nat) (store : Storage)
    (url key statusText : String) (status : Nat) (fr : Bool) (body : Json) (qf : Bool)
    (hmiss : freshHit true nowReq store key fr = none)
    (hok : statusOk status = true) :
    fetchWithCache true nowReq nowResp store url key fr
        (.response status statusText (some body)) qf
      = ⟨.ok body, setCachedData true nowResp store key body DEFAULT_TTL qf, 1⟩ := by
  unfold fetchWithCache
  rw [hmiss]
  simp [hok]

/-- Witness for C3 at a concrete input: cache empty, 200 response. -/
theorem fetch_success_writes_and_returns_witness :
    fetchWithCache true 0 0 [] "u" "k" false (.response 200 "OK" (some (.num 3))) false
      = ⟨.ok (.num 3), setCachedData true 0 [] "k" (.num 3) DEFAULT_TTL false, 1⟩ :=
  fetch_success_writes_and_returns 0 0 [] "u" "k" "OK" 200 false (.num 3) false rfl rfl

/-- Claim C1 (amended): for a call that reaches the network (no fresh truthy
hit) whose attempt fails (non-2xx status or transport failure): if the
stored entry for the key has a readable, *truthy* payload, that payload is
returned and no error reaches the caller, regardless of expiry; if no
stored truthy payload exists, a classified error propagates, and the error
thrown for HTTP 429 is distinct from the one thrown for any other status.
(The unamended claim fails for falsy stored payloads: see the
counterexample.) -/
theorem fetch_failure_stale_policy (nowReq nowResp : Nat) (store : Storage)
    (url key st1 st2 : String) (status : Nat) (fr : Bool) (net : NetOutcome)
    (qf : Bool) (d : Json)
    (hmiss : freshHit true nowReq store key fr = none)
    (hfail : netFailed net = true) :
    (getExpiredCacheData true store key = some d → d.truthy = true →
        fetchWithCache true nowReq nowResp store url key fr net qf = ⟨.ok d, store, 1⟩)
  ∧ ((∀ c, getExpiredCacheData true store key = some c → c.truthy = false) →
        fetchWithCache true nowReq nowResp store url key fr net qf
          = ⟨.error (classifiedOf net), store, 1⟩)
  ∧ (status ≠ 429 →
        classifiedOf (.response 429 st1 none) ≠ classifiedOf (.response status st2 none)) := by
  refine ⟨?_, ?_, ?_⟩
  · intro hstale htr
    cases net with
    | disconnect =>
      unfold fetchWithCache
      rw [hmiss]
      exact fallbackOrThrow_truthy store key _ d hstale htr
    | response s stx b =>
      simp only [netFailed] at hfail
      unfold fetchWithCache
      rw [hmiss]
      dsimp only
      rw [if_pos hfail]
      by_cases h429 : (s == 429) = true
      · rw [if_pos h429]
        exact fallbackOrThrow_truthy store key _ d hstale htr
      · rw [if_neg h429]
        exact fallbackOrThrow_truthy store key _ d hstale htr
  · intro hns
    cases net with
    | disconnect =>
      unfold fetchWithCache
      rw [hmiss]
      exact fallbackOrThrow_noStale store key _ hns
    | response s stx b =>
      simp only [netFailed] at hfail
      unfold fetchWithCache
      rw [hmiss]
      dsimp only
      rw [if_pos hfail]
      simp only [classifiedOf]
      by_cases h429 : (s == 429) = true
      · rw [if_pos h429, if_pos h429]
        exact fallbackOrThrow_noStale store key _ hns
      · rw [if_neg h429, if_neg h429]
        exact fallbackOrThrow_noStale store key _ hns
  · intro hne heq
    simp only [classifiedOf] at heq
    rw [if_pos (show ((429 : Nat) == 429) = true from rfl)] at heq
    rw [if_neg (fun hh => hne (by simpa using hh))] at heq
    injection heq with hmsg
    exact apiErrorMsg_ne_rateLimitMsg status st2 hmsg.symm

/-- Witness for C1's amended theorem: expired truthy entry served on a
transport failure. -/
theorem fetch_failure_stale_policy_witness :
    fetchWithCache true 2000 2000 [(getCacheKey "k", .json (entryJson "k" (.num 5) 0 100))]
        "u" "k" false .disconnect false
      = ⟨.ok (.num 5), [(getCacheKey "k", .json (entryJson "k" (.num 5) 0 100))], 1⟩ :=
  (fetch_failure_stale_policy 2000 2000
      [(getCacheKey "k", .json (entryJson "k" (.num 5) 0 100))]
      "u" "k" "" "" 500 false .disconnect false (.num 5) rfl rfl).1 rfl rfl

/-- Claim C1 counterexample: a stored entry for the key exists (payload `0`),
the network attempt fails with HTTP 500 — yet `fetchWithCache` throws
instead of returning the entry's data, because `if (expiredCache)` tests
the payload's truthiness. -/
theorem stale_fallback_entry_exists_counterexample :
    getItem c1Store (getCacheKey "k") = some (.json (entryJson "k" (.num 0) 0 100))
      ∧ fetchWithCache true 200 200 c1Store "u" "k" false
          (.response 500 "Internal Server Error" none) false
        = ⟨.error (.err "API Error: 500 Internal Server Error"), c1Store, 1⟩ :=
  ⟨rfl, rfl⟩

/-- Claim C10: for a stored unexpired entry whose payload is falsy under JS
truthiness, `fetchWithCache` with `forceRefresh = false` still makes a
network call (the hit check tests the payload, not entry presence), and
when the attempt fails, the falsy stale payload is not served — the
classified error propagates. -/
theorem falsy_payload_bypasses_cache (nowReq nowResp : Nat) (store : Storage)
    (url key : String) (e d : Json) (net : NetOutcome) (qf : Bool)
    (hentry : getItem store (getCacheKey key) = some (.json e))
    (hdata : e.getField "data" = some d)
    (hfalsy : d.truthy = false)
    (hunexp : expiresAfter nowReq e = true) :
    (fetchWithCache true nowReq nowResp store url key false net qf).netCalls = 1
      ∧ (netFailed net = true →
          fetchWithCache true nowReq nowResp store url key false net qf
            = ⟨.error (classifiedOf net), store, 1⟩) := by
  have hget : getCachedData true nowReq store key = some d := by
    unfold getCachedData
    rw [hentry]
    simp [hunexp, hdata]
  have hmiss : freshHit true nowReq store key false = none := by
    unfold freshHit
    rw [if_neg (by simp), hget]
    simp [hfalsy]
  have hstale : getExpiredCacheData true store key = some d := by
    unfold getExpiredCacheData
    rw [hentry]
    exact hdata
  have hns : ∀ c, getExpiredCacheData true store key = some c → c.truthy = false := by
    intro c hc
    rw [hstale] at hc
    cases hc
    exact hfalsy
  constructor
  · cases net with
    | disconnect =>
      unfold fetchWithCache
      rw [hmiss]
      exact fallbackOrThrow_netCalls true store key _
    | response s stx b =>
      unfold fetchWithCache
      rw [hmiss]
      dsimp only
      by_cases hs : ((!statusOk s) = true)
      · rw [if_pos hs]
        by_cases h429 : (s == 429) = true
        · rw [if_pos h429]; exact fallbackOrThrow_netCalls true store key _
        · rw [if_neg h429]; exact fallbackOrThrow_netCalls true store key _
      · rw [if_neg hs]
        cases b with
        | none => exact fallbackOrThrow_netCalls true store key _
        | some data => rfl
  · intro hfail
    cases net with
    | disconnect =>
      unfold fetchWithCache
      rw [hmiss]
      exact fallbackOrThrow_noStale store key _ hns
    | response s stx b =>
      simp only [netFailed] at hfail
      unfold fetchWithCache
      rw [hmiss]
      dsimp only
      rw [if_pos hfail]
      simp only [classifiedOf]
      by_cases h429 : (s == 429) = true
      · rw [if_pos h429, if_pos h429]
        exact fallbackOrThrow_noStale store key _ hns
      · rw [if_neg h429, if_neg h429]
        exact fallbackOrThrow_noStale store key _ hns

/-- Witness for C10 at a concrete input: unexpired falsy entry, HTTP 503. -/
theorem falsy_payload_bypasses_cache_witness :
    (fetchWithCache true 50 50 [(getCacheKey "k", .json (entryJson "k" (.num 0) 0 1000))]
        "u" "k" false (.response 503 "Service Unavailable" none) false).netCalls = 1
      ∧ fetchWithCache true 50 50 [(getCacheKey "k", .json (entryJson "k" (.num 0) 0 1000))]
          "u" "k" false (.response 503 "Service Unavailable" none) false
        = ⟨.error (classifiedOf (.response 503 "Service Unavailable" none)),
            [(getCacheKey "k", .json (entryJson "k" (.num 0) 0 1000))], 1⟩ :=
  ⟨(falsy_payload_bypasses_cache 50 50
      [(getCacheKey "k", .json (entryJson "k" (.num 0) 0 1000))] "u" "k"
      (entryJson "k" (.num 0) 0 1000) (.num 0)
      (.response 503 "Service Unavailable" none) false rfl rfl rfl rfl).1,
   (falsy_payload_bypasses_cache 50 50
      [(getCacheKey "k", .json (entryJson "k" (.num 0) 0 1000))] "u" "k"
      (entryJson "k" (.num 0) 0 1000) (.num 0)
      (.response 503 "Service Unavailable" none) false rfl rfl rfl rfl).2 rfl⟩

/-! List lemmas for the sweep operations. -/

/-- Removing a list of keys one by one is filtering by key membership. -/
theorem foldl_removeItem (ks : List String) (s : Storage) :
    ks.foldl removeItem s = s.filter (fun p => !(ks.contains p.1)) := by
  induction ks generalizing s with
  | nil =>
    have h : (fun (p : String × RawStr) => !(([] : List String).contains p.1))
        = fun _ => true := by
      funext p; rfl
    rw [h, List.filter_true]
    rfl
  | cons k ks ih =>
    rw [List.foldl_cons, ih (removeItem s k)]
    unfold removeItem
    rw [List.filter_filter]
    have h : (fun (a : String × RawStr) => (!ks.contains a.1) && (a.1 != k))
        = fun a => !((k :: ks).contains a.1) := by
      funext a
      simp only [List.contains_cons, Bool.not_or, bne]
      exact Bool.and_comm _ _
    rw [h]

/-- With no duplicate keys, two entries with the same key are the same
entry. -/
theorem fst_eq_of_nodup :
    ∀ {l : List (String × RawStr)}, (l.map (fun p => p.1)).Nodup →
      ∀ {p q : String × RawStr}, p ∈ l → q ∈ l → p.1 = q.1 → p = q := by
  intro l
  induction l with
  | nil => intro _ p q hp; exact absurd hp (List.not_mem_nil p)
  | cons r rest ih =>
    intro hnd p q hp hq hfst
    rw [List.map_cons, List.nodup_cons] at hnd
    rcases List.mem_cons.mp hp with hp1 | hp2
    · rcases List.mem_cons.mp hq with hq1 | hq2
      · rw [hp1, hq1]
      · exfalso
        exact hnd.1 (hp1 ▸ hfst ▸ List.mem_map.mpr ⟨q, hq2, rfl⟩)
    · rcases List.mem_cons.mp hq with hq1 | hq2
      · exfalso
        exact hnd.1 (hq1 ▸ hfst ▸ List.mem_map.mpr ⟨p, hp2, rfl⟩)
      · exact ih hnd.2 hp2 hq2 hfst

/-- When every namespaced record parses, the collection loop of the sweep
succeeds and collects exactly the namespaced expired keys. -/
theorem collectExpiredKeys_ok (now : Nat) :
    ∀ s : Storage, (∀ p ∈ s, strStartsWith p.1 CACHE_NS = true → p.2.isJson = true) →
      collectExpiredKeys now s
        = .ok ((s.filter (fun p => strStartsWith p.1 CACHE_NS && rawExpired now p.2)).map
            (fun p => p.1)) := by
  intro s
  induction s with
  | nil => intro _; rfl
  | cons p rest ih =>
    intro hwf
    have hrest := ih (fun q hq => hwf q (List.mem_cons_of_mem p hq))
    simp only [collectExpiredKeys]
    by_cases hpre : strStartsWith p.1 CACHE_NS = true
    · have hj := hwf p (List.mem_cons_self p rest) hpre
      cases hv : p.2 with
      | bad n =>
        rw [hv] at hj
        exact absurd hj (by simp [RawStr.isJson])
      | json e =>
        rw [if_pos hpre, hrest]
        dsimp only
        rw [List.filter_cons]
        simp only [hv, rawExpired, hpre, Bool.true_and]
        by_cases hex : expiredBy now e = true
        · rw [if_pos hex, if_pos hex, List.map_cons]
        · rw [if_neg hex, if_neg hex]
    · rw [if_neg hpre, hrest, List.filter_cons]
      rw [if_neg (by simp [hpre])]

/-- Claim C7: `clearAll` removes exactly the storage entries whose key
starts with the namespace, leaving every other entry (value and relative
order included) untouched. -/
theorem clearAll_exactly_namespaced (store : Storage) :
    clearAllCache true store = store.filter (fun p => !(strStartsWith p.1 CACHE_NS)) := by
  simp only [clearAllCache]
  rw [foldl_removeItem]
  apply List.filter_congr
  intro p hp
  have h : ((store.map (fun q => q.1)).filter (fun k => strStartsWith k CACHE_NS)).contains p.1
      = strStartsWith p.1 CACHE_NS := by
    cases hcb : ((store.map (fun q => q.1)).filter
        (fun k => strStartsWith k CACHE_NS)).contains p.1 with
    | true =>
      have hmem := List.elem_iff.mp hcb
      exact (List.mem_filter.mp hmem).2.symm
    | false =>
      by_cases hs : strStartsWith p.1 CACHE_NS = true
      · exfalso
        have hmem : p.1 ∈ (store.map (fun q => q.1)).filter (fun k => strStartsWith k CACHE_NS) :=
          List.mem_filter.mpr ⟨List.mem_map.mpr ⟨p, hp, rfl⟩, hs⟩
        have htrue : ((store.map (fun q => q.1)).filter
            (fun k => strStartsWith k CACHE_NS)).contains p.1 = true :=
          List.elem_iff.mpr hmem
        rw [htrue] at hcb
        cases hcb
      · rw [Bool.eq_false_iff.mpr hs]
  rw [h]

/-- Claim C6 (amended): when no namespaced record fails to parse and keys
are unique, one sweep removes exactly the namespaced entries with
`expiresAt <= now` and leaves every other entry intact. (The unamended
claim fails when a namespaced record is unparseable: the whole sweep aborts
and removes nothing — see the counterexample.) -/
theorem sweep_removes_exactly_expired (now : Nat) (store : Storage)
    (hnodup : (store.map (fun p => p.1)).Nodup)
    (hwf : ∀ p ∈ store, strStartsWith p.1 CACHE_NS = true → p.2.isJson = true) :
    clearExpiredCache true now store
      = store.filter (fun p => !(strStartsWith p.1 CACHE_NS && rawExpired now p.2)) := by
  unfold clearExpiredCache
  rw [collectExpiredKeys_ok now store hwf]
  dsimp only
  rw [foldl_removeItem]
  apply List.filter_congr
  intro p hp
  have h : ((store.filter (fun q => strStartsWith q.1 CACHE_NS && rawExpired now q.2)).map
        (fun q => q.1)).contains p.1
      = (strStartsWith p.1 CACHE_NS && rawExpired now p.2) := by
    cases hcb : ((store.filter (fun q => strStartsWith q.1 CACHE_NS && rawExpired now q.2)).map
        (fun q => q.1)).contains p.1 with
    | true =>
      have hmem := List.elem_iff.mp hcb
      obtain ⟨q, hqmem, hqfst⟩ := List.mem_map.mp hmem
      obtain ⟨hqstore, hqpe⟩ := List.mem_filter.mp hqmem
      have : q = p := fst_eq_of_nodup hnodup hqstore hp hqfst
      rw [← this]
      exact hqpe.symm
    | false =>
      by_cases hpe : (strStartsWith p.1 CACHE_NS && rawExpired now p.2) = true
      · exfalso
        have hmem : p.1 ∈ (store.filter
            (fun q => strStartsWith q.1 CACHE_NS && rawExpired now q.2)).map (fun q => q.1) :=
          List.mem_map.mpr ⟨p, List.mem_filter.mpr ⟨hp, hpe⟩, rfl⟩
        have htrue : ((store.filter
            (fun q => strStartsWith q.1 CACHE_NS && rawExpired now q.2)).map
              (fun q => q.1)).contains p.1 = true :=
          List.elem_iff.mpr hmem
        rw [htrue] at hcb
        cases hcb
      · rw [Bool.eq_false_iff.mpr hpe]
  rw [h]

/-- Witness for C6's amended theorem at a concrete input: one expired and
one fresh entry, plus an unrelated non-namespaced entry. -/
theorem sweep_removes_exactly_expired_witness :
    clearExpiredCache true 1000
        [(getCacheKey "a", .json (entryJson "a" (.num 1) 0 500)),
         (getCacheKey "b", .json (entryJson "b" (.num 2) 0 5000)),
         ("other", .json (.num 3))]
      = [(getCacheKey "b", .json (entryJson "b" (.num 2) 0 5000)),
         ("other", .json (.num 3))] := by
  rw [sweep_removes_exactly_expired 1000 _ (by decide) (by decide)]
  rfl

/-- Claim C6 counterexample: the store holds a namespaced entry `a` with
`expiresAt = 500 <= now = 1000` next to a namespaced record that
`JSON.parse` rejects; the sweep aborts on the parse error and removes
nothing, so the expired entry `a` survives. -/
theorem sweep_abort_counterexample :
    strStartsWith (getCacheKey "a") CACHE_NS = true
      ∧ expiredBy 1000 (entryJson "a" (.num 1) 0 500) = true
      ∧ clearExpiredCache true 1000 c6Store = c6Store :=
  ⟨rfl, rfl, rfl⟩

/-- When every namespaced record parses, the stats scan succeeds and counts
namespaced entries, the valid ones (`now < expiresAt`), the expired rest,
and twice the summed record lengths. -/
theorem statsScan_ok (now : Nat) :
    ∀ s : Storage, (∀ p ∈ s, strStartsWith p.1 CACHE_NS = true → p.2.isJson = true) →
      statsScan now s = .ok
        (s.countP (fun p => strStartsWith p.1 CACHE_NS),
         s.countP (fun p => strStartsWith p.1 CACHE_NS && rawValid now p.2),
         s.countP (fun p => strStartsWith p.1 CACHE_NS && rawStatExpired now p.2),
         ((s.filter (fun p => strStartsWith p.1 CACHE_NS)).map (fun p => 2 * p.2.len)).sum) := by
  intro s
  induction s with
  | nil => intro _; rfl
  | cons p rest ih =>
    intro hwf
    have hrest := ih (fun q hq => hwf q (List.mem_cons_of_mem p hq))
    simp only [statsScan]
    by_cases hpre : strStartsWith p.1 CACHE_NS = true
    · have hj := hwf p (List.mem_cons_self p rest) hpre
      cases hv : p.2 with
      | bad n =>
        rw [hv] at hj
        exact absurd hj (by simp [RawStr.isJson])
      | json e =>
        rw [if_pos hpre, hrest]
        dsimp only
        simp only [List.countP_cons, List.filter_cons, List.map_cons, hv, rawValid,
          rawStatExpired, hpre, Bool.true_and, RawStr.len]
        by_cases hex : expiresAfter now e = true
        · rw [if_pos hex]
          simp [hex, Nat.add_comm, hv]
        · rw [if_neg hex]
          simp [Bool.eq_false_iff.mpr hex, Nat.add_comm, hv]
    · rw [if_neg hpre, hrest]
      simp only [List.countP_cons, List.filter_cons,
        Bool.eq_false_iff.mpr hpre, Bool.false_and]
      simp

/-- Claim C9 (amended): on a store whose namespaced records all parse,
`stats` returns the snapshot whose `totalEntries` counts the namespaced
entries, `validEntries` those with `now < expiresAt`, `expiredEntries` the
rest — but the size is reported as the formatted string `totalSize`
(`"<n> B"` up to 1024 bytes, `"<x.xx> KB"` above), derived from, and not
equal to, the byte total; the raw byte count is not part of the snapshot.
(The unamended claim fails: see the counterexample.) -/
theorem stats_characterized (now : Nat) (store : Storage)
    (hwf : ∀ p ∈ store, strStartsWith p.1 CACHE_NS = true → p.2.isJson = true) :
    getCacheStats true now store =
      ⟨store.countP (fun p => strStartsWith p.1 CACHE_NS),
       store.countP (fun p => strStartsWith p.1 CACHE_NS && rawValid now p.2),
       store.countP (fun p => strStartsWith p.1 CACHE_NS && rawStatExpired now p.2),
       formatSize (((store.filter (fun p => strStartsWith p.1 CACHE_NS)).map
         (fun p => 2 * p.2.len)).sum)⟩ := by
  unfold getCacheStats
  rw [statsScan_ok now store hwf]
  rfl

/-- Witness for C9's amended theorem at a concrete input. -/
theorem stats_characterized_witness :
    getCacheStats true 150 c9WitStore
      = ⟨c9WitStore.countP (fun p => strStartsWith p.1 CACHE_NS),
         c9WitStore.countP (fun p => strStartsWith p.1 CACHE_NS && rawValid 150 p.2),
         c9WitStore.countP (fun p => strStartsWith p.1 CACHE_NS && rawStatExpired 150 p.2),
         formatSize (((c9WitStore.filter (fun p => strStartsWith p.1 CACHE_NS)).map
           (fun p => 2 * p.2.len)).sum)⟩ :=
  stats_characterized 150 c9WitStore (by decide)

set_option maxRecDepth 100000 in
/-- Claim C9 counterexample: two stores whose namespaced records total 1026
and 1028 bytes produce byte-for-byte identical `stats` snapshots
(`totalSize = "1.00 KB"` in both), so no field of the snapshot is "the
total size in bytes of the stored records". -/
theorem stats_size_collision_counterexample :
    getCacheStats true 150 c9StoreA = getCacheStats true 150 c9StoreB
      ∧ specTotalSizeBytes c9StoreA ≠ specTotalSizeBytes c9StoreB := by
  constructor
  · rfl
  · decide

/-- Witness for C8 at a concrete input: quota failure on an empty store. -/
theorem set_quota_failure_sweeps_witness :
    setCachedData true 0 [] "k" (.num 1) 5 true = clearExpiredCache true 0 []
      ∧ getItem (setCachedData true 0 [] "k" (.num 1) 5 true) (getCacheKey "k") = none :=
  ⟨(set_quota_failure_sweeps 0 [] "k" (.num 1) 5).1,
   (set_quota_failure_sweeps 0 [] "k" (.num 1) 5).2 rfl⟩
